import Mathlib

/-!
Verification development for the `whwebapi` media composition pipeline
(`src/video/video.service.ts`, two variants of `VideoService.renderVideo`,
plus `renderVideoById`, `downloadFile`, `isDataUrl`, `decodeDataUrl` and
`generateImages`).

Shallow embedding conventions:
* JavaScript numbers are modelled as rationals (`ℚ`); `Number.toFixed(3)`
  is modelled as rounding to the nearest thousandth, half towards +∞,
  which is the rounding the ECMAScript `toFixed` specification prescribes.
* File-system effects are modelled by tracking the set of files present in
  the job's session directory (`residual` in `RenderOutcome`).
* Network and encoder effects are modelled by an explicit environment
  (`RenderEnv`): a function from URL to HTTP response and a flag telling
  whether the ffmpeg invocation succeeds.
-/

namespace VideoService

/-- The single-quote character used by the manifest (`file '<path>'`). -/
def sq : String := String.singleton (Char.ofNat 39)

/-- Zero-pad a natural number to two digits (used by the modelled SRT time
formatting). -/
def pad2 (n : Nat) : String := if n < 10 then "0" ++ toString n else toString n

/-- Zero-pad a natural number to three digits; mirrors
`String(i).padStart(3, '0')` from the source. -/
def pad3 (n : Nat) : String :=
  if n < 10 then "00" ++ toString n
  else if n < 100 then "0" ++ toString n
  else toString n

/-- The integer of thousandths produced by `x.toFixed(3)`: the integer `n`
minimising `|n / 1000 - x|`, ties resolved to the larger `n` (that is,
`⌊x * 1000 + 1/2⌋`, written with the executable `Rat.floor`). -/
def toFixed3Int (q : ℚ) : Int := Rat.floor (q * 1000 + 1/2)

/-- `x.toFixed(3)` as a string, used verbatim in the concat manifest. -/
def toFixed3 (q : ℚ) : String :=
  let n := toFixed3Int q
  (if n < 0 then "-" else "") ++ toString (n.natAbs / 1000) ++ "." ++ pad3 (n.natAbs % 1000)

/-- The numeric value denoted by the string `x.toFixed(3)`. -/
def toFixed3val (q : ℚ) : ℚ := (toFixed3Int q : ℚ) / 1000

/-- `path.replace(/\\/g, '/')` from the source. -/
def normalizePath (p : String) : String :=
  String.mk (p.toList.map (fun c => if c = '\\' then '/' else c))

/-- One `file '<path>'` manifest line (with trailing newline). -/
def fileLine (p : String) : String := "file " ++ sq ++ normalizePath p ++ sq ++ "\n"

/-- One `duration <seconds to 3 decimals>` manifest line (with trailing
newline). -/
def durationLine (d : ℚ) : String := "duration " ++ toFixed3 d ++ "\n"

/-- The concat manifest built by `renderVideo` (both variants build the
same text): a loop appending, for every surviving image path, a `file`
line and a `duration` line, followed by one extra `file` line repeating
the last path. `imageDuration` is `duration / validImagePaths.length`. -/
def buildManifest (paths : List String) (dur : ℚ) : String :=
  let imageDuration := dur / (paths.length : ℚ)
  let filelistContent :=
    paths.foldl (fun acc p => acc ++ fileLine p ++ durationLine imageDuration) ""
  filelistContent ++ fileLine ((paths.getLast?).getD "")

/-- The manifest shape asserted by claim C3 / spec §6, written from the
spec's words for comparison: every entry but the last gets a `file` line
and a `duration` line, and then a single final `file` line for the last
image with no duration field. -/
def claimManifestC3 (paths : List String) (dur : ℚ) : String :=
  let imageDuration := dur / (paths.length : ℚ)
  String.join (paths.dropLast.map (fun p => fileLine p ++ durationLine imageDuration)) ++
    fileLine ((paths.getLast?).getD "")

/-- The numeric values of the `N` duration fields rendered in
`buildManifest` for `N` surviving images and total duration `dur`. -/
def timelineDurations (n : Nat) (dur : ℚ) : List ℚ :=
  List.replicate n (toFixed3val (dur / (n : ℚ)))

/-! ## Asset fetching (`downloadFile`, `isDataUrl`, `decodeDataUrl`) -/

/-- Outcome classification of one `downloadFile` call: the `Invalid data
URL format` error, or the HTTP error `Failed to download file: <status>`. -/
inductive FetchError where
  | decodeError
  | networkError (status : Nat)
deriving DecidableEq

/-- The part of a `fetch` response the code inspects: `ok`, `status`, and
the downloaded bytes. -/
structure NetResponse where
  ok : Bool
  status : Nat
  body : String

/-- Strip an expected leading character sequence, `none` when the input
does not start with it (helper for the regex model below). -/
def dropFront : List Char → List Char → Option (List Char)
  | [], l => some l
  | _ :: _, [] => none
  | p :: ps, c :: cs => if p = c then dropFront ps cs else none

/-- `url.startsWith('data:')` from the source. -/
def isDataUrl (url : String) : Bool := (dropFront ("data:".toList) url.toList).isSome

/-- Split at the first semicolon: the characters before it (the greedy
`[^;]+` capture) and the rest beginning with the semicolon. -/
def takeToSemi : List Char → List Char × List Char
  | [] => ([], [])
  | c :: cs =>
    if c = ';' then ([], c :: cs)
    else
      let r := takeToSemi cs
      (c :: r.1, r.2)

/-- Line terminators, which `.` in a JavaScript regex never matches:
LF, CR, LINE SEPARATOR (U+2028) and PARAGRAPH SEPARATOR (U+2029), the
four ECMAScript LineTerminator code points. -/
def isLineTerm (c : Char) : Bool :=
  c = '\n' || c = '\r' || c = Char.ofNat 0x2028 || c = Char.ofNat 0x2029

/-- `decodeDataUrl` from the source: match
`^data:([^;]+);base64,(.+)$` and return the base64 body (second capture);
`none` models the thrown `Invalid data URL format`. The media-type capture
must be non-empty and semicolon-free, the body non-empty and free of line
terminators. -/
def decodeDataUrl (url : String) : Option String :=
  match dropFront ("data:".toList) url.toList with
  | none => none
  | some rest =>
    let tr := takeToSemi rest
    if tr.1 = [] then none
    else
      match dropFront (";base64,".toList) tr.2 with
      | none => none
      | some body =>
        if body = [] then none
        else if body.any isLineTerm then none
        else some (String.mk body)

/-- `downloadFile` from the source: data URLs are decoded locally (the
network function is never consulted); other URLs are fetched, and a
non-`ok` response fails with the status. The returned string stands for
the bytes written to the destination file. -/
def downloadFile (net : String → NetResponse) (url : String) : Except FetchError String :=
  if isDataUrl url then
    match decodeDataUrl url with
    | some b => Except.ok b
    | none => Except.error FetchError.decodeError
  else
    let r := net url
    if r.ok then Except.ok r.body else Except.error (FetchError.networkError r.status)

/-- `true` iff the fetch succeeded (the truthiness test behind
`imagePaths[i] = imagePath` / `imagePaths.push(imagePath)`). -/
def fetchOk : Except FetchError String → Bool
  | Except.ok _ => true
  | Except.error _ => false

/-! ## The render pipeline (`renderVideo`, both variants) -/

/-- The effect environment of one render run: the network and whether the
ffmpeg invocation succeeds. -/
structure RenderEnv where
  net : String → NetResponse
  encodeOk : Bool

/-- `image_<i padded to 3>.png`, the in-session file name of image `i`. -/
def imageName (i : Nat) : String := "image_" ++ pad3 i ++ ".png"

/-- The surviving image paths, indexed from `i`: image `i` is kept exactly
when its download succeeds, preserving input order (variant 1 assigns
`imagePaths[i]` and compacts with `filter(Boolean)`; variant 2 pushes in
loop order — both give the successful indices in increasing order). -/
def survivorsFrom (env : RenderEnv) : Nat → List String → List String
  | _, [] => []
  | i, u :: us =>
    if fetchOk (downloadFile env.net u) then imageName i :: survivorsFrom env (i+1) us
    else survivorsFrom env (i+1) us

/-- `validImagePaths` for a full image list. -/
def survivors (env : RenderEnv) (images : List String) : List String :=
  survivorsFrom env 0 images

/-- The in-session file names of all images, indexed from `i`. -/
def imageNamesFrom : Nat → List String → List String
  | _, [] => []
  | i, _ :: us => imageName i :: imageNamesFrom (i+1) us

/-- The in-session file names of all images in input order. -/
def allImageNames (images : List String) : List String := imageNamesFrom 0 images

/-- The terminal outcomes of `renderVideo`: audio download failure
(rethrown), `No images were processed successfully`, and an ffmpeg error
(rejected promise, rethrown). -/
inductive RenderError where
  | fetchAudioFailed (e : FetchError)
  | insufficientAssets
  | encodeFailed
deriving DecidableEq

/-- The data a successful render is built from that the claims inspect:
the surviving image paths and the manifest text. -/
structure RenderOk where
  validImagePaths : List String
  manifest : String
deriving DecidableEq

instance instDecEqExcept {ε α : Type} [DecidableEq ε] [DecidableEq α] :
    DecidableEq (Except ε α)
  | Except.error e, Except.error f =>
    if h : e = f then isTrue (by rw [h])
    else isFalse (by intro hh; injection hh with h2; exact h h2)
  | Except.error e, Except.ok b => isFalse (fun h => Except.noConfusion h)
  | Except.ok a, Except.error f => isFalse (fun h => Except.noConfusion h)
  | Except.ok a, Except.ok b =>
    if h : a = b then isTrue (by rw [h])
    else isFalse (by intro hh; injection hh with h2; exact h h2)

/-- One run of `renderVideo`: its result, the files left in the session
directory when it returns (`residual`), and whether ffmpeg was invoked. -/
structure RenderOutcome where
  result : Except RenderError RenderOk
  residual : List String
  encodeInvoked : Bool

/-- `renderVideo` from the source. Control flow: download audio (failure
rethrows with nothing yet written); download images, dropping failures;
throw `No images were processed successfully` when none survive (the
audio file is already on disk and is not removed); write the manifest and
run ffmpeg; on ffmpeg failure rethrow, leaving audio, images and manifest
on disk; on success read the output and unlink audio, manifest, output
and every surviving image, leaving nothing. -/
def renderVideo (env : RenderEnv) (audioUrl : String) (images : List String)
    (dur : ℚ) : RenderOutcome :=
  match downloadFile env.net audioUrl with
  | Except.error e => ⟨Except.error (RenderError.fetchAudioFailed e), [], false⟩
  | Except.ok _ =>
    let valid := survivors env images
    if valid = [] then ⟨Except.error RenderError.insufficientAssets, ["audio.mp3"], false⟩
    else
      ⟨if env.encodeOk then Except.ok ⟨valid, buildManifest valid dur⟩
        else Except.error RenderError.encodeFailed,
       if env.encodeOk then [] else "audio.mp3" :: valid ++ ["filelist.txt"],
       true⟩

/-! ## `renderVideoById` -/

/-- The `video_data` row consulted by `renderVideoById`; `none` models a
null/absent column. The Supabase lookup itself and the
`Supabase not configured` check are upstream of the modelled pipeline and
throw before any file is created. -/
structure VideoData where
  audio_file_url : String
  image_list : Option (List String)
  duration : Option ℚ

/-- `videoData.duration || 30` from the source: JavaScript `||` replaces
every falsy value, so an absent duration and a zero duration both become
30. -/
def resolveDuration (d : Option ℚ) : ℚ :=
  match d with
  | none => 30
  | some q => if q = 0 then 30 else q

/-- `renderVideoById` from the source:
`renderVideo(videoData.audio_file_url, videoData.image_list || [],
videoData.duration || 30, sessionId)`. -/
def renderVideoById (env : RenderEnv) (v : VideoData) : RenderOutcome :=
  renderVideo env v.audio_file_url (v.image_list.getD []) (resolveDuration v.duration)

/-! ## `generateImages` -/

/-- Classification of one loop iteration of `generateImages`: the
response carried usable inline image data, or it failed in one of the four
ways the code distinguishes (no inline data part, invalid structure, no
candidates, exception thrown). In the source a present-but-empty data
string is falsy and lands in the no-inline-data branch; both branches
push the same empty string, so `success` may carry any string. -/
inductive GenOutcome where
  | success (data : String)
  | noInlineData
  | invalidStructure
  | noCandidates
  | thrown
deriving DecidableEq

/-- `true` on the four branches that log an error and push `''`. -/
def genFailed : GenOutcome → Bool
  | GenOutcome.success _ => false
  | _ => true

/-- The string pushed onto `images` for one prompt. -/
def genImageResult : GenOutcome → String
  | GenOutcome.success d => d
  | GenOutcome.noInlineData => ""
  | GenOutcome.invalidStructure => ""
  | GenOutcome.noCandidates => ""
  | GenOutcome.thrown => ""

/-- `generateImages` from the source, abstracted over the per-prompt
outcomes: the loop never aborts, pushing exactly one string per prompt. -/
def generateImages (outs : List GenOutcome) : List String := outs.map genImageResult

/-! ## Subtitle time formatting (modelled from the spec) -/

/-- Modelled from the spec: the repository's `src/` contains no subtitle
encoder or time formatter (captions are produced by `generateCaptions`
but never rendered to a track); spec §4.4 gives the formatter's
arithmetic. The four fields `(hours, minutes, seconds, ms)` computed from
a millisecond offset `m`. -/
def srtFields (m : Nat) : Nat × Nat × Nat × Nat :=
  let totalSeconds := m / 1000
  (totalSeconds / 3600, (totalSeconds % 3600) / 60, totalSeconds % 60, m % 1000)

/-- Modelled from the spec: `HH:MM:SS,mmm` with two-digit padded hours,
minutes and seconds and three-digit padded milliseconds. -/
def formatSrtTime (m : Nat) : String :=
  pad2 (srtFields m).1 ++ ":" ++ pad2 (srtFields m).2.1 ++ ":" ++
    pad2 (srtFields m).2.2.1 ++ "," ++ pad3 (srtFields m).2.2.2

/-- The per-entry blocks of the manifest, written entry by entry: each
surviving image contributes a `file` line and a `duration` line. Used to
state the (amended) manifest-structure claim against `buildManifest`'s
accumulator loop. -/
def entryBlocks (dN : ℚ) : List String → String
  | [] => ""
  | p :: ps => fileLine p ++ durationLine dN ++ entryBlocks dN ps

/-! ## Helper lemmas -/

lemma toFixed3Int_eq_floor (q : ℚ) : toFixed3Int q = ⌊q * 1000 + 1/2⌋ := by
  rw [toFixed3Int, Rat.floor_def', Rat.floor_def]

lemma abs_toFixed3val_sub (q : ℚ) : |toFixed3val q - q| ≤ 1/2000 := by
  rw [toFixed3val, toFixed3Int_eq_floor]
  have h1 := Int.floor_le (q * 1000 + 1/2)
  have h2 := Int.lt_floor_add_one (q * 1000 + 1/2)
  rw [abs_le]
  constructor <;> linarith

lemma foldl_entryBlocks (dN : ℚ) (l : List String) : ∀ acc : String,
    l.foldl (fun a p => a ++ fileLine p ++ durationLine dN) acc = acc ++ entryBlocks dN l := by
  induction l with
  | nil => intro acc; simp [entryBlocks, String.append_empty]
  | cons p ps ih =>
    intro acc
    simp only [List.foldl_cons, entryBlocks]
    rw [ih, String.append_assoc, String.append_assoc, String.append_assoc]

lemma survivorsFrom_sublist (env : RenderEnv) (l : List String) :
    ∀ i, (survivorsFrom env i l).Sublist (imageNamesFrom i l) := by
  induction l with
  | nil => intro i; simp [survivorsFrom, imageNamesFrom]
  | cons u us ih =>
    intro i
    simp only [survivorsFrom, imageNamesFrom]
    split
    · exact (ih (i+1)).cons₂ _
    · exact (ih (i+1)).cons _

lemma survivorsFrom_eq_nil (env : RenderEnv) (l : List String) :
    ∀ i, (survivorsFrom env i l = [] ↔
      ∀ u ∈ l, fetchOk (downloadFile env.net u) = false) := by
  induction l with
  | nil => intro i; simp [survivorsFrom]
  | cons u us ih =>
    intro i
    simp only [survivorsFrom]
    split
    · rename_i h
      simp only [List.mem_cons]
      constructor
      · intro hc; exact absurd hc (by simp)
      · intro hall
        have := hall u (Or.inl rfl)
        rw [h] at this
        cases this
    · rename_i h
      rw [ih (i+1)]
      simp only [List.forall_mem_cons]
      constructor
      · intro hall; exact ⟨by simpa using h, hall⟩
      · intro hall; exact hall.2

lemma genImageResult_of_failed (o : GenOutcome) (h : genFailed o = true) :
    genImageResult o = "" := by
  cases o <;> simp_all [genFailed, genImageResult]

lemma dropFront_append (l r : List Char) : dropFront l (l ++ r) = some r := by
  induction l with
  | nil => rfl
  | cons c cs ih => simp [dropFront, ih]

lemma takeToSemi_append (t rest : List Char) (ht : ∀ c ∈ t, c ≠ ';') :
    takeToSemi (t ++ ';' :: rest) = (t, ';' :: rest) := by
  induction t with
  | nil => simp [takeToSemi]
  | cons c cs ih =>
    have hc : c ≠ ';' := ht c (List.mem_cons_self c cs)
    have ih2 : takeToSemi (cs.append (';' :: rest)) = (cs, ';' :: rest) :=
      ih (fun x hx => ht x (List.mem_cons_of_mem c hx))
    simp only [List.cons_append, takeToSemi, if_neg hc]
    rw [ih2]

/-! ## Claim theorems -/

/-- C3, counterexample: with a single surviving image `a` and total
duration 1, the manifest the code builds gives the (sole, hence last)
entry an explicit `duration` line before the terminal repeat, so it is
not of the shape the claim asserts (all entries except the last get a
duration, the last none). -/
theorem c3_counterexample : buildManifest ["a"] 1 ≠ claimManifestC3 ["a"] 1 := by decide

/-- C3 (amended): for every timeline of N ≥ 1 surviving images, the
manifest consists of, for each of the N entries including the last, the
two lines `file '<path>'` and `duration <seconds to 3 decimals>`,
followed by exactly one additional final line `file '<path-of-last>'`
carrying no duration field (the terminal repeat); only the last entry's
path appears twice. -/
theorem c3_manifest_structure (p : String) (ps : List String) (d : ℚ) :
    buildManifest (p :: ps) d =
      entryBlocks (d / ((p :: ps).length : ℚ)) (p :: ps) ++
        fileLine (((p :: ps).getLast?).getD "") := by
  simp only [buildManifest]
  rw [foldl_entryBlocks]
  rw [String.empty_append]

/-- C4: for N ≥ 1 surviving images and total duration D, each image is
assigned the equal share D / N, and the sum of the N rendered (3-decimal)
durations equals D within N × 1 ms. -/
theorem c4_duration_sum (n : Nat) (D : ℚ) (hn : 1 ≤ n) :
    (timelineDurations n D).length = n ∧
    (∀ x ∈ timelineDurations n D, x = toFixed3val (D / (n : ℚ))) ∧
    |(timelineDurations n D).sum - D| ≤ (n : ℚ) * (1/1000) := by
  refine ⟨by simp [timelineDurations], ?_, ?_⟩
  · intro x hx
    exact List.eq_of_mem_replicate hx
  · have hn0 : ((n : ℚ)) ≠ 0 := Nat.cast_ne_zero.mpr (by omega)
    have habs := abs_toFixed3val_sub (D / (n : ℚ))
    rw [timelineDurations, List.sum_replicate, nsmul_eq_mul]
    have hsplit : (n : ℚ) * toFixed3val (D / (n : ℚ)) - D =
        (n : ℚ) * (toFixed3val (D / (n : ℚ)) - D / (n : ℚ)) := by
      field_simp
      ring
    rw [hsplit, abs_mul, abs_of_nonneg (by positivity : (0:ℚ) ≤ (n : ℚ))]
    have h2 : (n : ℚ) * |toFixed3val (D / (n : ℚ)) - D / (n : ℚ)| ≤ (n : ℚ) * (1/2000) :=
      mul_le_mul_of_nonneg_left habs (by positivity)
    have h3 : (n : ℚ) * (1/2000) ≤ (n : ℚ) * (1/1000) :=
      mul_le_mul_of_nonneg_left (by norm_num) (by positivity)
    linarith

/-- C4 witness: two images over one second. -/
theorem c4_duration_sum_witness :
    (timelineDurations 2 1).length = 2 ∧
    (∀ x ∈ timelineDurations 2 1, x = toFixed3val (1 / ((2 : Nat) : ℚ))) ∧
    |(timelineDurations 2 1).sum - 1| ≤ ((2 : Nat) : ℚ) * (1/1000) :=
  c4_duration_sum 2 1 (by norm_num)

/-- C7: manifest generation is a deterministic function of the ordered
image paths and the total duration: identical inputs give byte-identical
manifest text. -/
theorem c7_manifest_deterministic (p1 p2 : List String) (d1 d2 : ℚ)
    (hp : p1 = p2) (hd : d1 = d2) : buildManifest p1 d1 = buildManifest p2 d2 := by
  rw [hp, hd]

/-- C7 witness. -/
theorem c7_manifest_deterministic_witness :
    buildManifest ["a"] 5 = buildManifest ["a"] 5 :=
  c7_manifest_deterministic ["a"] ["a"] 5 5 rfl rfl

/-- C9 (formatter modelled from the spec, absent from `src/`): the three
example timestamps, and the computed fields reconstruct the input
millisecond offset exactly. -/
theorem c9_time_format :
    formatSrtTime 1500 = "00:00:01,500" ∧ formatSrtTime 3661000 = "01:01:01,000" ∧
    formatSrtTime 0 = "00:00:00,000" ∧
    ∀ m : Nat, (srtFields m).1 * 3600000 + (srtFields m).2.1 * 60000 +
      (srtFields m).2.2.1 * 1000 + (srtFields m).2.2.2 = m := by
  refine ⟨by decide, by decide, by decide, ?_⟩
  intro m
  simp only [srtFields]
  omega

/-- C10: `generateImages` returns exactly one entry per prompt outcome;
every failed position holds the empty string, every successful position
holds its data. -/
theorem c10_generate_images_total (outs : List GenOutcome) :
    (generateImages outs).length = outs.length ∧
    (∀ i o, outs.get? i = some o → genFailed o = true →
      (generateImages outs).get? i = some "") ∧
    (∀ i d, outs.get? i = some (GenOutcome.success d) →
      (generateImages outs).get? i = some d) := by
  refine ⟨by simp [generateImages], ?_, ?_⟩
  · intro i o h hf
    rw [generateImages, List.get?_map, h]
    simp [genImageResult_of_failed o hf]
  · intro i d h
    rw [generateImages, List.get?_map, h]
    rfl

/-- C10 witness: one successful and one thrown prompt. -/
theorem c10_generate_images_total_witness :
    (generateImages [GenOutcome.success "abc", GenOutcome.thrown]).length = 2 ∧
    (generateImages [GenOutcome.success "abc", GenOutcome.thrown]).get? 1 = some "" ∧
    (generateImages [GenOutcome.success "abc", GenOutcome.thrown]).get? 0 = some "abc" :=
  have h := c10_generate_images_total [GenOutcome.success "abc", GenOutcome.thrown]
  ⟨h.1, h.2.1 1 GenOutcome.thrown rfl rfl, h.2.2 0 "abc" rfl⟩

/-- C1, counterexample: a run whose encode step fails leaves the audio
file, the fetched image and the manifest in the session directory — the
failure exit path deletes nothing. -/
theorem c1_counterexample :
    (renderVideo ⟨fun _ => ⟨true, 200, "bytes"⟩, false⟩ "http://a" ["http://i"] 1).residual =
      ["audio.mp3", "image_000.png", "filelist.txt"] ∧
    (renderVideo ⟨fun _ => ⟨true, 200, "bytes"⟩, false⟩ "http://a" ["http://i"] 1).residual ≠
      [] := by
  constructor <;> decide

/-- C1 (amended): the files created during the job are all deleted on the
successful exit path — cleanup runs only after the output has been read;
failure paths leave the files created so far in place. -/
theorem c1_cleanup_on_success (env : RenderEnv) (audioUrl : String) (images : List String)
    (d : ℚ) (r : RenderOk)
    (hr : (renderVideo env audioUrl images d).result = Except.ok r) :
    (renderVideo env audioUrl images d).residual = [] := by
  cases hdl : downloadFile env.net audioUrl with
  | error e => simp [renderVideo, hdl] at hr
  | ok b =>
    by_cases hv : survivors env images = []
    · simp [renderVideo, hdl, hv] at hr
    · cases he : env.encodeOk
      · simp [renderVideo, hdl, hv, he] at hr
      · simp [renderVideo, hdl, hv, he]

/-- C1 witness: a fully successful run leaves no residual files. -/
theorem c1_cleanup_on_success_witness :
    (renderVideo ⟨fun _ => ⟨true, 200, "bytes"⟩, true⟩ "http://a" ["http://i"] 1).residual = [] :=
  c1_cleanup_on_success ⟨fun _ => ⟨true, 200, "bytes"⟩, true⟩ "http://a" ["http://i"] 1
    ⟨["image_000.png"], buildManifest ["image_000.png"] 1⟩ rfl

/-- C2: audio fetch failure always fails the job; when the audio fetch
succeeds and at least one image survives, the job proceeds with exactly
the surviving images (never `InsufficientAssets`); when the audio fetch
succeeds and no image survives, the job fails with `InsufficientAssets`
and no encode is invoked; and no image surviving is exactly every image
fetch failing. -/
theorem c2_fetch_failure_policy (env : RenderEnv) (audioUrl : String)
    (images : List String) (d : ℚ) :
    (∀ e, downloadFile env.net audioUrl = Except.error e →
      (renderVideo env audioUrl images d).result =
        Except.error (RenderError.fetchAudioFailed e)) ∧
    (fetchOk (downloadFile env.net audioUrl) = true → survivors env images ≠ [] →
      (renderVideo env audioUrl images d).result ≠
        Except.error RenderError.insufficientAssets ∧
      (renderVideo env audioUrl images d).result =
        (if env.encodeOk then
          Except.ok ⟨survivors env images, buildManifest (survivors env images) d⟩
         else Except.error RenderError.encodeFailed)) ∧
    (fetchOk (downloadFile env.net audioUrl) = true → survivors env images = [] →
      (renderVideo env audioUrl images d).result =
        Except.error RenderError.insufficientAssets ∧
      (renderVideo env audioUrl images d).encodeInvoked = false) ∧
    (survivors env images = [] ↔
      ∀ u ∈ images, fetchOk (downloadFile env.net u) = false) := by
  refine ⟨?_, ?_, ?_, survivorsFrom_eq_nil env images 0⟩
  · intro e he
    simp [renderVideo, he]
  · intro hok hv
    cases hdl : downloadFile env.net audioUrl with
    | error e => rw [hdl] at hok; exact absurd hok (by simp [fetchOk])
    | ok b =>
      cases he : env.encodeOk <;>
        simp [renderVideo, hdl, hv, he]
  · intro hok hv
    cases hdl : downloadFile env.net audioUrl with
    | error e => rw [hdl] at hok; exact absurd hok (by simp [fetchOk])
    | ok b =>
      simp [renderVideo, hdl, hv]

/-- C2 witness: five image references of which three fail — the job
proceeds with the two survivors; five of five failing — the job fails
with `InsufficientAssets` and no encode is invoked; a failing audio
fetch fails the job. -/
theorem c2_fetch_failure_policy_witness :
    (renderVideo ⟨fun u => ⟨u = "good0" || u = "good1" || u = "audio", 500, "b"⟩, true⟩
        "audio" ["good0", "bad0", "good1", "bad1", "bad2"] 10).result ≠
      Except.error RenderError.insufficientAssets ∧
    survivors ⟨fun u => ⟨u = "good0" || u = "good1" || u = "audio", 500, "b"⟩, true⟩
        ["good0", "bad0", "good1", "bad1", "bad2"] =
      ["image_000.png", "image_002.png"] ∧
    (renderVideo ⟨fun u => ⟨u = "audio", 500, "b"⟩, true⟩
        "audio" ["bad0", "bad1", "bad2", "bad3", "bad4"] 10).result =
      Except.error RenderError.insufficientAssets ∧
    (renderVideo ⟨fun u => ⟨u = "audio", 500, "b"⟩, true⟩
        "audio" ["bad0", "bad1", "bad2", "bad3", "bad4"] 10).encodeInvoked = false ∧
    (renderVideo ⟨fun _ => ⟨false, 500, "b"⟩, true⟩ "audio" ["good0"] 10).result =
      Except.error (RenderError.fetchAudioFailed (FetchError.networkError 500)) := by
  have h1 := c2_fetch_failure_policy
    ⟨fun u => ⟨u = "good0" || u = "good1" || u = "audio", 500, "b"⟩, true⟩
    "audio" ["good0", "bad0", "good1", "bad1", "bad2"] 10
  have h2 := c2_fetch_failure_policy ⟨fun u => ⟨u = "audio", 500, "b"⟩, true⟩
    "audio" ["bad0", "bad1", "bad2", "bad3", "bad4"] 10
  have h3 := c2_fetch_failure_policy ⟨fun _ => ⟨false, 500, "b"⟩, true⟩ "audio" ["good0"] 10
  refine ⟨(h1.2.1 (by decide) (by decide)).1, by decide,
    (h2.2.2.1 (by decide) (by decide)).1, (h2.2.2.1 (by decide) (by decide)).2,
    h3.1 (FetchError.networkError 500) (by decide)⟩

/-- C8: whenever a render reaches the timeline (returns a result built
from one), the surviving image list is non-empty and lists the survivors
in the same relative order as the input image references. -/
theorem c8_timeline_order (env : RenderEnv) (audioUrl : String) (images : List String)
    (d : ℚ) (r : RenderOk)
    (hr : (renderVideo env audioUrl images d).result = Except.ok r) :
    r.validImagePaths = survivors env images ∧ r.validImagePaths ≠ [] ∧
      r.validImagePaths.Sublist (allImageNames images) := by
  cases hdl : downloadFile env.net audioUrl with
  | error e => simp [renderVideo, hdl] at hr
  | ok b =>
    by_cases hv : survivors env images = []
    · simp [renderVideo, hdl, hv] at hr
    · cases he : env.encodeOk
      · simp [renderVideo, hdl, hv, he] at hr
      · simp [renderVideo, hdl, hv, he] at hr
        have hval : r.validImagePaths = survivors env images := by
          rw [← hr]
        exact ⟨hval, by rw [hval]; exact hv,
          by rw [hval]; exact survivorsFrom_sublist env images 0⟩

/-- C8 witness: with the middle fetches failing, the timeline keeps the
surviving images in input order. -/
theorem c8_timeline_order_witness :
    (⟨["image_000.png", "image_002.png"],
        buildManifest ["image_000.png", "image_002.png"] 10⟩ : RenderOk).validImagePaths =
      survivors ⟨fun u => ⟨u = "good0" || u = "good1" || u = "audio", 500, "b"⟩, true⟩
        ["good0", "bad0", "good1", "bad1", "bad2"] ∧
    (⟨["image_000.png", "image_002.png"],
        buildManifest ["image_000.png", "image_002.png"] 10⟩ : RenderOk).validImagePaths ≠ [] ∧
    (⟨["image_000.png", "image_002.png"],
        buildManifest ["image_000.png", "image_002.png"] 10⟩ : RenderOk).validImagePaths.Sublist
      (allImageNames ["good0", "bad0", "good1", "bad1", "bad2"]) :=
  c8_timeline_order ⟨fun u => ⟨u = "good0" || u = "good1" || u = "audio", 500, "b"⟩, true⟩
    "audio" ["good0", "bad0", "good1", "bad1", "bad2"] 10
    ⟨["image_000.png", "image_002.png"], buildManifest ["image_000.png", "image_002.png"] 10⟩
    rfl

/-- C5, counterexample: a job record with no stored duration renders
successfully (no error of any kind is raised) and the timeline is built
with a silently substituted duration of 30 seconds; no metadata probe
exists in the code. -/
theorem c5_counterexample :
    (renderVideoById ⟨fun _ => ⟨true, 200, "bytes"⟩, true⟩
        ⟨"http://a", some ["http://i"], none⟩).result =
      Except.ok ⟨["image_000.png"], buildManifest ["image_000.png"] 30⟩ ∧
    resolveDuration none = 30 :=
  ⟨rfl, rfl⟩

/-- C5 (amended): the timeline duration is taken from the stored job
record (or the explicit request parameter); an absent or zero stored
duration is silently replaced by 30 seconds, any other stored value is
used as is, and no probing of the audio metadata (and no `ProbeError`)
occurs anywhere in the pipeline. -/
theorem c5_duration_policy :
    resolveDuration none = 30 ∧ resolveDuration (some 0) = 30 ∧
    (∀ q : ℚ, q ≠ 0 → resolveDuration (some q) = q) ∧
    (∀ env v, renderVideoById env v =
      renderVideo env v.audio_file_url (v.image_list.getD []) (resolveDuration v.duration)) := by
  refine ⟨rfl, by simp [resolveDuration], ?_, fun env v => rfl⟩
  intro q hq
  simp [resolveDuration, hq]

/-- C5 witness: a non-zero stored duration is used as is. -/
theorem c5_duration_policy_witness :
    resolveDuration (some 7) = 7 ∧ resolveDuration none = 30 :=
  ⟨c5_duration_policy.2.2.1 7 (by norm_num), c5_duration_policy.1⟩

/-- C6: a data-URL reference is decoded locally — the result does not
depend on the network at all, a malformed encoding fails with the decode
error, a well-formed one yields its body — and a well-shaped
`data:<type>;base64,<body>` string always decodes to its body; any other
reference goes to the network, succeeding with the response body exactly
when the response is `ok` and failing with a status-carrying network
error otherwise. -/
theorem c6_fetch_dispatch (net net2 : String → NetResponse) (url t b : String) :
    (isDataUrl url = true → downloadFile net url = downloadFile net2 url ∧
      (decodeDataUrl url = none →
        downloadFile net url = Except.error FetchError.decodeError) ∧
      (∀ s, decodeDataUrl url = some s → downloadFile net url = Except.ok s)) ∧
    (isDataUrl url = false →
      ((net url).ok = true → downloadFile net url = Except.ok (net url).body) ∧
      ((net url).ok = false →
        downloadFile net url = Except.error (FetchError.networkError (net url).status))) ∧
    (t ≠ "" → (∀ c ∈ t.toList, c ≠ ';') → b ≠ "" →
      (∀ c ∈ b.toList, isLineTerm c = false) →
      decodeDataUrl ("data:" ++ t ++ ";base64," ++ b) = some b) := by
  refine ⟨?_, ?_, ?_⟩
  · intro hd
    refine ⟨by simp [downloadFile, hd], ?_, ?_⟩
    · intro hdec; simp [downloadFile, hd, hdec]
    · intro s hdec; simp [downloadFile, hd, hdec]
  · intro hd
    constructor <;> intro hok <;> simp [downloadFile, hd, hok]
  · intro htne hsemi hbne hterm
    have h1 : ("data:" ++ t ++ ";base64," ++ b).toList =
        "data:".toList ++ (t.toList ++ (';' :: ("base64,".toList ++ b.toList))) := by
      have h0 : ("data:" ++ t ++ ";base64," ++ b).toList =
          (("data:".toList ++ t.toList) ++ (';' :: "base64,".toList)) ++ b.toList := rfl
      rw [h0]
      simp [List.append_assoc]
    have htl : t.toList ≠ [] := by
      intro hnil
      exact htne (String.ext hnil)
    have hbl : b.toList ≠ [] := by
      intro hnil
      exact hbne (String.ext hnil)
    have hdrop : dropFront (";base64,".toList) (';' :: ("base64,".toList ++ b.toList)) =
        some b.toList := dropFront_append (";base64,".toList) b.toList
    have hany : b.toList.any isLineTerm = false := by
      rw [List.any_eq_false]
      intro c hc
      simpa using hterm c hc
    have htake := takeToSemi_append t.toList ("base64,".toList ++ b.toList) hsemi
    have hterm2 : ∀ c ∈ b.data, isLineTerm c = false := hterm
    simp only [String.toList, List.cons_append, List.nil_append] at htake hdrop htl hbl
    rw [decodeDataUrl, h1, dropFront_append]
    simp [htake, hdrop, htl, hbl, hany, hterm2]
    exact hterm2

/-- C6 witness: a concrete data URL decoded identically under two
different networks, a malformed data URL, a well-shaped decode, and a
404 network fetch. -/
theorem c6_fetch_dispatch_witness :
    downloadFile (fun _ => ⟨true, 200, "x"⟩) "data:image/png;base64,AAAA" =
      downloadFile (fun _ => ⟨false, 500, "y"⟩) "data:image/png;base64,AAAA" ∧
    downloadFile (fun _ => ⟨true, 200, "x"⟩) "data:bad" =
      Except.error FetchError.decodeError ∧
    decodeDataUrl ("data:" ++ "image/png" ++ ";base64," ++ "AAAA") = some "AAAA" ∧
    downloadFile (fun _ => ⟨false, 404, "y"⟩) "http://x" =
      Except.error (FetchError.networkError 404) := by
  have h1 := c6_fetch_dispatch (fun _ => ⟨true, 200, "x"⟩) (fun _ => ⟨false, 500, "y"⟩)
    "data:image/png;base64,AAAA" "image/png" "AAAA"
  have h2 := c6_fetch_dispatch (fun _ => ⟨true, 200, "x"⟩) (fun _ => ⟨false, 500, "y"⟩)
    "data:bad" "image/png" "AAAA"
  have h3 := c6_fetch_dispatch (fun _ => ⟨false, 404, "y"⟩) (fun _ => ⟨false, 404, "y"⟩)
    "http://x" "image/png" "AAAA"
  refine ⟨(h1.1 (by decide)).1, (h2.1 (by decide)).2.1 (by decide),
    h1.2.2 (by decide) (by decide) (by decide) (by decide),
    (h3.2.1 (by decide)).2 (by decide)⟩

end VideoService
